import Mathlib

/-!
Verification development for the product-browser repository: a shallow
embedding of the persistence schema (supabase migrations), the
trigger-scraper edge function, and the frontend pagination and counting
hooks, together with spec-modelled components (evidence ledger attach,
confidence scoring, batch orchestrator) whose backend worker code is not
part of the available sources.
-/

set_option maxRecDepth 8000

deriving instance DecidableEq for Except

namespace ProductBrowser

/-! ## Opportunities table (schema embedding)

The opportunities table is declared (initial schema plus the
20241228142700 migration) with integer score columns and CHECK
constraints: confidence_score between 0 and 100, pain_severity between
0 and 10, timing_score between 0 and 10.  trend_score is an INTEGER
with DEFAULT 0 and no CHECK constraint. -/

/-- A row of the opportunities table.  Column types follow the SQL
declarations: the four score columns are INTEGER, text columns are
strings.  Timestamps are not modelled. -/
structure OpportunityRow where
  title : String
  description : String
  problem_summary : String
  category : String
  confidence_score : Int
  trend_score : Int
  pain_severity : Int
  growth_pattern : String
  timing_score : Int
  evidence_count : Int
  status : String
deriving Repr, DecidableEq

/-- The conjunction of the CHECK constraints declared on the
opportunities table.  Note that trend_score does not appear: the schema
places no CHECK constraint on it. -/
def oppChecksOk (r : OpportunityRow) : Bool :=
  (0 ≤ r.confidence_score && r.confidence_score ≤ 100) &&
  (0 ≤ r.pain_severity && r.pain_severity ≤ 10) &&
  (0 ≤ r.timing_score && r.timing_score ≤ 10)

/-- A write against the opportunities table: INSERT of a row, or UPDATE
of the row at a position to new contents. -/
inductive OppOp where
  | insert (r : OpportunityRow)
  | update (i : Nat) (r : OpportunityRow)
deriving Repr

/-- One write applied to the table state.  Postgres rejects a statement
whose row violates a CHECK constraint, leaving the table unchanged. -/
def applyOppOp (s : List OpportunityRow) : OppOp → List OpportunityRow
  | .insert r => if oppChecksOk r then s ++ [r] else s
  | .update i r => if oppChecksOk r then s.set i r else s

/-- The table state reached from the empty table by a sequence of
writes. -/
def applyOppOps (ops : List OppOp) : List OpportunityRow :=
  ops.foldl applyOppOp []

/-- Applying one write preserves the all-rows-checked invariant. -/
theorem oppChecks_applyOppOp (s : List OpportunityRow) (op : OppOp)
    (h : ∀ r ∈ s, oppChecksOk r = true) :
    ∀ r ∈ applyOppOp s op, oppChecksOk r = true := by
  intro r hr
  cases op with
  | insert q =>
    simp only [applyOppOp] at hr
    by_cases hq : oppChecksOk q = true
    · rw [if_pos hq] at hr
      rcases List.mem_append.mp hr with h1 | h1
      · exact h r h1
      · simp only [List.mem_singleton] at h1; subst h1; exact hq
    · rw [if_neg hq] at hr; exact h r hr
  | update i q =>
    simp only [applyOppOp] at hr
    by_cases hq : oppChecksOk q = true
    · rw [if_pos hq] at hr
      rcases List.mem_or_eq_of_mem_set hr with h1 | h1
      · exact h r h1
      · subst h1; exact hq
    · rw [if_neg hq] at hr; exact h r hr

/-- Every table state reached from empty satisfies the CHECK
constraints rowwise. -/
theorem oppChecks_reachable (ops : List OppOp) :
    ∀ r ∈ applyOppOps ops, oppChecksOk r = true := by
  suffices h : ∀ (s : List OpportunityRow),
      (∀ r ∈ s, oppChecksOk r = true) →
      ∀ r ∈ ops.foldl applyOppOp s, oppChecksOk r = true by
    exact h [] (by intro r hr; cases hr)
  induction ops with
  | nil => intro s hs; simpa using hs
  | cons op rest ih =>
    intro s hs
    simp only [List.foldl_cons]
    exact ih (applyOppOp s op) (oppChecks_applyOppOp s op hs)

/-- C1: every persisted opportunities row has pain_severity in the
range 0 to 10, confidence_score an integer in the range 0 to 100, and
timing_score in the range 0 to 10: the CHECK constraints make the store
reject any write outside these ranges, so every reachable table state
contains only rows inside them. -/
theorem opportunity_scores_in_documented_ranges
    (ops : List OppOp) (r : OpportunityRow) (hr : r ∈ applyOppOps ops) :
    (0 ≤ r.pain_severity ∧ r.pain_severity ≤ 10) ∧
    (0 ≤ r.confidence_score ∧ r.confidence_score ≤ 100) ∧
    (0 ≤ r.timing_score ∧ r.timing_score ≤ 10) := by
  have h := oppChecks_reachable ops r hr
  simp only [oppChecksOk, Bool.and_eq_true, decide_eq_true_eq] at h
  exact ⟨⟨h.1.2.1, h.1.2.2⟩, ⟨h.1.1.1, h.1.1.2⟩, ⟨h.2.1, h.2.2⟩⟩

/-- A concrete opportunities row with every checked score in range and
a negative trend_score. -/
def negTrendRow : OpportunityRow :=
  { title := "x", description := "", problem_summary := "", category := "c"
    confidence_score := 50, trend_score := -1, pain_severity := 5
    growth_pattern := "regular", timing_score := 5, evidence_count := 1
    status := "active" }

/-- Witness for C1 at a concrete write sequence. -/
theorem opportunity_scores_in_documented_ranges_witness :
    negTrendRow ∈ applyOppOps [OppOp.insert negTrendRow] ∧
    (0 ≤ negTrendRow.pain_severity ∧ negTrendRow.pain_severity ≤ 10) ∧
    (0 ≤ negTrendRow.confidence_score ∧ negTrendRow.confidence_score ≤ 100) ∧
    (0 ≤ negTrendRow.timing_score ∧ negTrendRow.timing_score ≤ 10) := by
  refine ⟨by decide, ?_⟩
  have h := opportunity_scores_in_documented_ranges
    [OppOp.insert negTrendRow] negTrendRow (by decide)
  exact ⟨h.1, h.2.1, h.2.2⟩

/-- C5 counterexample: the store accepts and persists a row whose
trend_score is negative, because the schema declares no CHECK
constraint on trend_score (unlike the three other score columns), so
persisted rows are not guaranteed a non-negative trend_score. -/
theorem trend_score_negative_row_persisted :
    negTrendRow ∈ applyOppOps [OppOp.insert negTrendRow] ∧
    negTrendRow.trend_score < 0 := by decide

/-- C5 amended: trend_score is an INTEGER column with default 0, but
the schema constrains only confidence_score, pain_severity and
timing_score; a row passing those three checks is persisted whatever
integer its trend_score holds, so non-negativity of trend_score is not
enforced by the persistence layer. -/
theorem trend_score_unconstrained (s : List OpportunityRow)
    (r : OpportunityRow) (t : Int) (h : oppChecksOk r = true) :
    let r2 := { r with trend_score := t }
    applyOppOp s (.insert r2) = s ++ [r2] := by
  intro r2
  have h2 : oppChecksOk r2 = true := h
  simp [applyOppOp, h2]

/-- Witness for the amended C5 at a concrete row and trend_score. -/
theorem trend_score_unconstrained_witness :
    oppChecksOk negTrendRow = true ∧
    applyOppOp [] (.insert { negTrendRow with trend_score := -7 }) =
      [{ negTrendRow with trend_score := -7 }] :=
  ⟨by decide, trend_score_unconstrained [] negTrendRow (-7) (by decide)⟩

/-! ## Trigger-scraper edge function (supabase/functions/trigger-scraper/index.ts)

The function simpleHash folds over the UTF-16 code units of the input
with 32-bit signed wrapping arithmetic and renders the absolute value
in base 36.  scrapeReddit maps each fetched Reddit post to a raw_posts
record, returning the empty list on any fetch or HTTP failure.  The
serve handler concatenates the per-subreddit results and upserts them
into raw_posts with conflict target post_id. -/

/-- Wrap an integer to the signed 32-bit range, as the JavaScript
bitwise operators do. -/
def toInt32 (n : Int) : Int := (n + 2 ^ 31) % 2 ^ 32 - 2 ^ 31

/-- One step of simpleHash: hash = ((hash << 5) - hash) + char, then
hash = hash & hash, both coercing through signed 32-bit integers. -/
def hashStep (h : Int) (c : Nat) : Int := toInt32 (toInt32 (h * 32) - h + c)

/-- The integer value accumulated by simpleHash over a string. -/
def simpleHashVal (s : String) : Int :=
  s.data.foldl (fun h c => hashStep h c.toNat) 0

/-- The base-36 digit character used by Number.toString(36). -/
def base36Digit (n : Nat) : Char :=
  if n < 10 then Char.ofNat (48 + n) else Char.ofNat (87 + n)

/-- Accumulate the base-36 digits of a natural number, least
significant digit innermost.  Structural recursion on a fuel argument
(the value itself serves as ample fuel, since each step divides by
36). -/
def toBase36Go : Nat → Nat → List Char → List Char
  | 0, _, acc => acc
  | fuel + 1, n, acc =>
    if n = 0 then acc
    else toBase36Go fuel (n / 36) (base36Digit (n % 36) :: acc)

/-- Number.toString(36) for non-negative integers. -/
def natToBase36 (n : Nat) : String :=
  if n = 0 then "0" else String.mk (toBase36Go n n [])

/-- simpleHash: fold the 32-bit hash over the string, take the absolute
value, render in base 36. -/
def simpleHash (s : String) : String := natToBase36 (simpleHashVal s).natAbs

/-- The fields of one fetched Reddit post used by the scraper. -/
structure RedditPostData where
  title : String
  selftext : String
  score : Int
  num_comments : Int
  created_utc : Int
  permalink : String
  id : String
  author : String
deriving Repr, DecidableEq

/-- A raw_posts record as built by scrapeReddit (metrics flattened to
the three counters the code stores; the scraped_at wall-clock timestamp
is not modelled). -/
structure RawPostRecord where
  platform : String
  post_id : String
  content : String
  author : String
  url : String
  upvotes : Int
  comments : Int
  created_utc : Int
  content_hash : String
  processed : Bool
deriving Repr, DecidableEq

/-- The per-post mapping inside scrapeReddit: the stored content is the
title, the content hash is simpleHash of the platform id concatenated
with the title, and processed is set to false. -/
def mapRedditPost (p : RedditPostData) : RawPostRecord :=
  { platform := "reddit"
    post_id := "reddit_" ++ p.id
    content := p.title
    author := p.author
    url := "https://www.reddit.com" ++ p.permalink
    upvotes := p.score
    comments := p.num_comments
    created_utc := p.created_utc
    content_hash := simpleHash (p.id ++ p.title)
    processed := false }

/-- The outcome of the HTTP fetch of one subreddit listing. -/
inductive FetchOutcome where
  | fetchError
  | httpError (status : Nat)
  | ok (posts : List RedditPostData)
deriving Repr

/-- scrapeReddit: on a failed fetch or a non-OK HTTP status the error
is logged and the empty list returned; on success every fetched post is
mapped to a raw_posts record. -/
def scrapeReddit : FetchOutcome → List RawPostRecord
  | .fetchError => []
  | .httpError _ => []
  | .ok posts => posts.map mapRedditPost

/-- Upsert of one record into raw_posts with conflict target post_id
(ignoreDuplicates false, so a conflicting row is updated).  The UNIQUE
constraint on content_hash still applies: a write that would leave two
distinct rows with one content_hash fails the statement. -/
def upsertRow (store : List RawPostRecord) (r : RawPostRecord) :
    Except String (List RawPostRecord) :=
  if store.any (fun q => q.post_id = r.post_id) then
    if store.any (fun q => q.post_id ≠ r.post_id ∧ q.content_hash = r.content_hash) then
      .error "unique violation on content_hash"
    else
      .ok (store.map (fun q => if q.post_id = r.post_id then r else q))
  else
    if store.any (fun q => q.content_hash = r.content_hash) then
      .error "unique violation on content_hash"
    else
      .ok (store ++ [r])

/-- Upsert of a payload, row by row in payload order, aborting on the
first constraint violation. -/
def upsertAll (store : List RawPostRecord) (rs : List RawPostRecord) :
    Except String (List RawPostRecord) :=
  rs.foldlM upsertRow store

/-- C8: every record produced by scrapeReddit carries processed =
false; the scraper never emits an already-processed post. -/
theorem scrapeReddit_processed_false (o : FetchOutcome)
    (r : RawPostRecord) (hr : r ∈ scrapeReddit o) :
    r.processed = false := by
  cases o with
  | fetchError => cases hr
  | httpError s => cases hr
  | ok posts =>
    simp only [scrapeReddit, List.mem_map] at hr
    obtain ⟨p, _, rfl⟩ := hr
    rfl

/-- A concrete fetched Reddit post used by the witnesses. -/
def samplePost : RedditPostData :=
  { title := "Best dog brush", selftext := "", score := 12
    num_comments := 3, created_utc := 1700000000
    permalink := "/r/dogs/comments/abc/x/", id := "abc", author := "u1" }

/-- Witness for C8 at a concrete fetched post. -/
theorem scrapeReddit_processed_false_witness :
    mapRedditPost samplePost ∈ scrapeReddit (.ok [samplePost]) ∧
    (mapRedditPost samplePost).processed = false :=
  ⟨by simp [scrapeReddit],
   scrapeReddit_processed_false (.ok [samplePost]) (mapRedditPost samplePost)
     (by simp [scrapeReddit])⟩

/-- Two scrapes of the same Reddit post (platform id x1) whose title
was edited between the scrapes, so the two content hashes differ while
the post_id is the same. -/
def postV1 : RedditPostData :=
  { title := "Old title", selftext := "", score := 1, num_comments := 0
    created_utc := 1700000000, permalink := "/r/dogs/comments/x1/a/"
    id := "x1", author := "u1" }

/-- The second scrape of the post of postV1, with the edited title. -/
def postV2 : RedditPostData :=
  { title := "New title", selftext := "", score := 2, num_comments := 1
    created_utc := 1700000500, permalink := "/r/dogs/comments/x1/a/"
    id := "x1", author := "u1" }

/-- C3 counterexample: the content hash is not the deduplication key of
the save path.  Upserting the re-scraped post (same platform id, edited
title) on top of the stored first scrape is absorbed as a duplicate —
the store keeps exactly one row, now the second version — even though
the two content hashes differ, because the upsert conflict target is
post_id, not content_hash. -/
theorem content_hash_not_the_dedup_key :
    (mapRedditPost postV1).content_hash ≠ (mapRedditPost postV2).content_hash ∧
    upsertAll [] [mapRedditPost postV1] = .ok [mapRedditPost postV1] ∧
    upsertAll [mapRedditPost postV1] [mapRedditPost postV2] =
      .ok [mapRedditPost postV2] := by decide

/-- C3 amended: every RawPost carries a content hash (simpleHash over
platform id concatenated with title) that the database constrains to be
unique, but the deduplication key of the save path is post_id: an
incoming record whose post_id matches a stored row is absorbed as an
update of that row (store size unchanged), while an incoming record
with a fresh post_id whose content hash collides with a stored row is
not merged — the statement fails the uniqueness constraint. -/
theorem upsert_dedup_driven_by_post_id (store : List RawPostRecord)
    (r : RawPostRecord) :
    ((store.any fun q => q.post_id = r.post_id) = true →
     (store.any fun q => q.post_id ≠ r.post_id ∧ q.content_hash = r.content_hash) = false →
     upsertRow store r =
       .ok (store.map fun q => if q.post_id = r.post_id then r else q) ∧
     (store.map fun q => if q.post_id = r.post_id then r else q).length =
       store.length) ∧
    ((store.any fun q => q.post_id = r.post_id) = false →
     (store.any fun q => q.content_hash = r.content_hash) = true →
     upsertRow store r = .error "unique violation on content_hash") := by
  constructor
  · intro h1 h2
    refine ⟨?_, List.length_map _ _⟩
    unfold upsertRow
    rw [h1, h2]
    simp
  · intro h1 h2
    unfold upsertRow
    rw [h1, h2]
    simp

/-- A record with a fresh post_id whose content hash collides with the
stored hash of the first scrape. -/
def hashCollidingRecord : RawPostRecord :=
  { mapRedditPost postV2 with
    post_id := "reddit_zz"
    content_hash := (mapRedditPost postV1).content_hash }

/-- Witness for the amended C3: the edited re-scrape is absorbed by
post_id into a one-row store, and a fresh post whose content hash
collides with a stored one is rejected. -/
theorem upsert_dedup_driven_by_post_id_witness :
    upsertRow [mapRedditPost postV1] (mapRedditPost postV2) =
      .ok [mapRedditPost postV2] ∧
    upsertRow [mapRedditPost postV1] hashCollidingRecord =
      .error "unique violation on content_hash" := by
  constructor
  · have h := (upsert_dedup_driven_by_post_id
      [mapRedditPost postV1] (mapRedditPost postV2)).1 (by decide) (by decide)
    have h2 := h.1
    rw [h2]
    decide
  · exact (upsert_dedup_driven_by_post_id [mapRedditPost postV1] _).2
      (by decide) (by decide)

/-! ## The serve handler of trigger-scraper -/

/-- The concatenation of the per-subreddit scrape results, one fetch
outcome per configured subreddit, in order. -/
def allScraped (outcomes : List FetchOutcome) : List RawPostRecord :=
  (outcomes.map scrapeReddit).flatten

/-- The JSON summary the serve handler returns: the empty-batch branch,
the saved branch carrying postsSaved, totalScraped and the subreddit
count, or the 500 branch on a storage error.  No branch carries a count
of failed fetches. -/
inductive ServeResponse where
  | emptyBatch (success : Bool) (postsSaved : Nat) (message : String)
  | saved (success : Bool) (postsSaved totalScraped subredditCount : Nat)
  | storageFailed (msg : String)
deriving Repr, DecidableEq

/-- The serve handler: scrape every configured subreddit, concatenate,
return the empty-batch summary when nothing was scraped, otherwise
upsert into raw_posts and either return the saved summary or surface
the storage error as a 500. -/
def serveScraper (outcomes : List FetchOutcome) (store : List RawPostRecord) :
    ServeResponse × List RawPostRecord :=
  if (allScraped outcomes).isEmpty then
    (.emptyBatch true 0 "No posts scraped - check logs for errors", store)
  else
    match upsertAll store (allScraped outcomes) with
    | .ok store2 =>
      (.saved true (allScraped outcomes).length (allScraped outcomes).length
        outcomes.length, store2)
    | .error e => (.storageFailed e, store)

/-- C4 counterexample: a run in which the first subreddit fetch fails
and the second succeeds produces exactly the same response and store as
a run in which the first subreddit succeeds with zero posts — the
successful item is saved either way, but the failure is only logged to
the console and appears nowhere in the batch summary returned to the
caller, so it is not counted there. -/
theorem fetch_failure_not_counted_in_summary :
    serveScraper [.fetchError, .ok [samplePost]] [] =
      serveScraper [.ok [], .ok [samplePost]] [] ∧
    (serveScraper [.fetchError, .ok [samplePost]] []).2 =
      [mapRedditPost samplePost] := by decide

/-- A failed fetch contributes the same empty list as a successful
fetch of zero posts. -/
theorem allScraped_fetchError (pre post : List FetchOutcome) :
    allScraped (pre ++ .fetchError :: post) =
      allScraped (pre ++ .ok [] :: post) := by
  simp [allScraped, scrapeReddit]

/-- C4 amended: a failure while fetching one subreddit never aborts the
batch — the failing subreddit contributes an empty list and the posts
of every other subreddit are still saved, the whole run being
indistinguishable from one where that subreddit succeeded with zero
posts; however the returned batch summary carries only success,
postsSaved, totalScraped and the subreddit count, so fetch failures are
logged but not counted in the summary. -/
theorem fetch_failure_isolated (pre post : List FetchOutcome)
    (store : List RawPostRecord) :
    serveScraper (pre ++ .fetchError :: post) store =
      serveScraper (pre ++ .ok [] :: post) store := by
  unfold serveScraper
  rw [allScraped_fetchError]
  simp

/-! ## useOpportunityCounts (frontend/hooks/use-opportunities.ts)

The hook fetches the category column of every opportunities row,
initialises a record with key total mapped to the row count, then for
each row increments the entry at the row category, creating it at 1 if
absent.  The record is modelled as an association list in insertion
order; reading a key is first-match lookup. -/

/-- One step of the counting loop: counts[c] = (counts[c] || 0) + 1 on
a JavaScript record, on the association-list model. -/
def bumpCount (counts : List (String × Nat)) (c : String) : List (String × Nat) :=
  if counts.any (fun e => e.1 = c) then
    counts.map (fun e => if e.1 = c then (e.1, e.2 + 1) else e)
  else counts ++ [(c, 1)]

/-- The record built by useOpportunityCounts from the fetched category
column: total at the row count, then one increment per row. -/
def buildCounts (cats : List String) : List (String × Nat) :=
  cats.foldl bumpCount [("total", cats.length)]

/-- Reading a key from the record model: the value at the first entry
with that key, if any. -/
def lookupCount : List (String × Nat) → String → Option Nat
  | [], _ => none
  | e :: rest, c => if e.1 = c then some e.2 else lookupCount rest c

/-- Incrementing every entry keyed c changes the lookup at c by one and
no other lookup. -/
theorem lookupCount_map_inc (counts : List (String × Nat)) (c x : String) :
    lookupCount (counts.map (fun e => if e.1 = c then (e.1, e.2 + 1) else e)) x =
      if x = c then (lookupCount counts c).map (· + 1) else lookupCount counts x := by
  induction counts with
  | nil => by_cases hx : x = c <;> simp [lookupCount, hx]
  | cons e rest ih =>
    simp only [List.map_cons]
    by_cases he : e.1 = c
    · by_cases hx : x = c
      · subst hx
        simp [lookupCount, he, ih]
      · have hcx : ¬ c = x := fun h => hx h.symm
        simp [lookupCount, he, hx, ih, hcx]
    · by_cases hx : x = c
      · subst hx
        simp [lookupCount, he, ih]
      · simp [lookupCount, he, hx, ih]

/-- A key no entry carries looks up to none. -/
theorem lookupCount_none_of_any_false (counts : List (String × Nat)) (c : String)
    (h : counts.any (fun e => e.1 = c) = false) : lookupCount counts c = none := by
  induction counts with
  | nil => rfl
  | cons e rest ih =>
    simp only [List.any_cons, Bool.or_eq_false_iff] at h
    have he : e.1 ≠ c := by simpa using h.1
    simp [lookupCount, he, ih h.2]

/-- A key some entry carries looks up to a value. -/
theorem lookupCount_isSome_of_any_true (counts : List (String × Nat)) (c : String)
    (h : counts.any (fun e => e.1 = c) = true) : (lookupCount counts c).isSome := by
  induction counts with
  | nil => simp at h
  | cons e rest ih =>
    simp only [List.any_cons, Bool.or_eq_true] at h
    by_cases he : e.1 = c
    · simp [lookupCount, he]
    · have hrest : rest.any (fun e => e.1 = c) = true := by
        rcases h with h | h
        · exact absurd (by simpa using h) he
        · exact h
      simp [lookupCount, he, ih hrest]

/-- Lookup distributes over append, preferring the left list. -/
theorem lookupCount_append (l1 l2 : List (String × Nat)) (c : String) :
    lookupCount (l1 ++ l2) c =
      match lookupCount l1 c with
      | some v => some v
      | none => lookupCount l2 c := by
  induction l1 with
  | nil => simp [lookupCount]
  | cons e rest ih =>
    by_cases he : e.1 = c <;> simp [lookupCount, he, ih]

/-- One counting step raises the bumped key by one (from a default of
zero) and leaves every other key unchanged. -/
theorem lookupCount_bumpCount (counts : List (String × Nat)) (c x : String) :
    lookupCount (bumpCount counts c) x =
      if x = c then some ((lookupCount counts c).getD 0 + 1)
      else lookupCount counts x := by
  unfold bumpCount
  by_cases h : counts.any (fun e => e.1 = c) = true
  · rw [if_pos h, lookupCount_map_inc]
    by_cases hx : x = c
    · subst hx
      obtain ⟨v, hv⟩ :=
        Option.isSome_iff_exists.mp (lookupCount_isSome_of_any_true counts x h)
      simp [hv]
    · simp [hx]
  · rw [if_neg h, lookupCount_append]
    have hnone := lookupCount_none_of_any_false counts c (Bool.eq_false_iff.mpr h)
    by_cases hx : x = c
    · subst hx
      simp [hnone, lookupCount]
    · by_cases hlx : lookupCount counts x = none
      · have hcx2 : ¬ c = x := fun hh => hx hh.symm
        simp [hlx, lookupCount, hx, hcx2]
      · obtain ⟨v, hv⟩ := Option.ne_none_iff_exists'.mp hlx
        have hcx : ¬ c = x := fun hh => hx hh.symm
        simp [hv, hx, hcx]

/-- The counting loop adds the multiplicity of each key in the
traversed list on top of whatever the initial record held. -/
theorem lookupCount_foldl_bump (cats : List String) (counts : List (String × Nat))
    (x : String) :
    lookupCount (cats.foldl bumpCount counts) x =
      if x ∈ cats ∨ (lookupCount counts x).isSome
      then some ((lookupCount counts x).getD 0 + cats.count x)
      else none := by
  induction cats generalizing counts with
  | nil =>
    simp only [List.foldl_nil, List.not_mem_nil, false_or, List.count_nil]
    cases hl : lookupCount counts x <;> simp [hl]
  | cons a rest ih =>
    simp only [List.foldl_cons]
    rw [ih (bumpCount counts a), lookupCount_bumpCount]
    by_cases hx : x = a
    · subst hx
      simp only [if_pos rfl, List.mem_cons, true_or, List.count_cons, beq_self_eq_true,
        if_pos, Option.isSome_some, or_true, Option.getD_some]
      congr 1
      omega
    · have hax : (a == x) = false := beq_eq_false_iff_ne.mpr (fun hh => hx hh.symm)
      simp only [if_neg hx, List.mem_cons, List.count_cons, hax, if_false,
        Bool.false_eq_true, add_zero]
      by_cases hcond : x ∈ rest ∨ (lookupCount counts x).isSome = true
      · rw [if_pos hcond, if_pos ?_]
        rcases hcond with h1 | h1
        · exact Or.inl (Or.inr h1)
        · exact Or.inr h1
      · rw [if_neg hcond, if_neg ?_]
        rintro ((h1 | h1) | h1)
        · exact hx h1
        · exact hcond (Or.inl h1)
        · exact hcond (Or.inr h1)

/-- C9: when no fetched row has category total, the record returned by
useOpportunityCounts maps total to the number of fetched rows and every
category of a fetched row to the exact number of rows carrying that
category. -/
theorem useOpportunityCounts_exact (cats : List String)
    (h : ∀ c ∈ cats, c ≠ "total") :
    lookupCount (buildCounts cats) "total" = some cats.length ∧
    ∀ c ∈ cats, lookupCount (buildCounts cats) c = some (cats.count c) := by
  unfold buildCounts
  constructor
  · rw [lookupCount_foldl_bump]
    have hmem : "total" ∉ cats := fun hm => (h _ hm) rfl
    have h0 : lookupCount [("total", cats.length)] "total" = some cats.length := by
      simp [lookupCount]
    rw [h0]
    simp [hmem, List.count_eq_zero_of_not_mem hmem]
  · intro c hc
    rw [lookupCount_foldl_bump]
    have h0 : lookupCount [("total", cats.length)] c = none := by
      simp [lookupCount, Ne.symm (h c hc)]
    rw [h0]
    simp [hc]

/-- Witness for C9 on a concrete fetched category column. -/
theorem useOpportunityCounts_exact_witness :
    lookupCount (buildCounts ["pets", "home", "pets"]) "total" = some 3 ∧
    lookupCount (buildCounts ["pets", "home", "pets"]) "pets" = some 2 := by
  have h := useOpportunityCounts_exact ["pets", "home", "pets"] (by decide)
  refine ⟨h.1, ?_⟩
  have h2 := h.2 "pets" (by decide)
  simpa using h2

/-! ## useOpportunities pagination (src/unnamed/part_011)

The hook computes from = (page - 1) * limit, to = from + limit - 1,
requests the row range from..to, and returns totalPages =
Math.ceil(count / limit).  Defaults are page 1, limit 20. -/

/-- The first requested row position. -/
def pageFrom (page limit : Nat) : Nat := (page - 1) * limit

/-- The last requested row position. -/
def pageTo (page limit : Nat) : Nat := pageFrom page limit + limit - 1

/-- totalPages as computed by the hook: the ceiling of the exact
division of the row count by the limit. -/
def totalPages (count limit : Nat) : Int :=
  Int.ceil ((count : ℚ) / (limit : ℚ))

/-- The ceiling of an exact natural division agrees with the rounded-up
natural division formula. -/
theorem totalPages_eq_natCeil (c L : Nat) (hL : 1 ≤ L) :
    totalPages c L = ((c + L - 1) / L : Nat) := by
  unfold totalPages
  rw [Int.ceil_eq_iff]
  have hq := Nat.div_add_mod (c + L - 1) L
  have hr : (c + L - 1) % L < L := Nat.mod_lt _ (by omega)
  set q := (c + L - 1) / L with hqdef
  set r := (c + L - 1) % L with hrdef
  have hm1 : c ≤ q * L := by
    have h2 : L * q + r = c + L - 1 := hq
    generalize hgen : L * q = m at h2
    have hqm : q * L = m := by rw [Nat.mul_comm]; exact hgen
    omega
  have hm2 : q * L < c + L := by
    have h2 : L * q + r = c + L - 1 := hq
    generalize hgen : L * q = m at h2
    have hqm : q * L = m := by rw [Nat.mul_comm]; exact hgen
    omega
  have hLQ : (0 : ℚ) < (L : ℚ) := by positivity
  constructor
  · rw [lt_div_iff₀ hLQ]
    have hcast : ((q * L : Nat) : ℚ) < ((c + L : Nat) : ℚ) := by exact_mod_cast hm2
    push_cast at hcast ⊢
    ring_nf
    ring_nf at hcast
    linarith
  · rw [div_le_iff₀ hLQ]
    have hcast : ((c : Nat) : ℚ) ≤ ((q * L : Nat) : ℚ) := by exact_mod_cast hm1
    push_cast at hcast ⊢
    linarith

/-- C10: for every page p at least 1 and limit L at least 1 the
requested row range runs from (p - 1) times L to p times L minus 1,
covering exactly L positions; the ranges of consecutive pages are
contiguous, the ranges of distinct pages are disjoint, and totalPages
is the ceiling of the row count divided by L, equal to the rounded-up
natural division. -/
theorem useOpportunities_pagination_exact (p L c : Nat) (hp : 1 ≤ p) (hL : 1 ≤ L) :
    pageFrom p L = (p - 1) * L ∧
    pageTo p L = p * L - 1 ∧
    pageTo p L - pageFrom p L + 1 = L ∧
    pageTo p L + 1 = pageFrom (p + 1) L ∧
    (∀ q, p < q → pageTo p L < pageFrom q L) ∧
    totalPages c L = ((c + L - 1) / L : Nat) := by
  obtain ⟨k, rfl⟩ : ∃ k, p = k + 1 := ⟨p - 1, by omega⟩
  refine ⟨rfl, ?_, ?_, ?_, ?_, totalPages_eq_natCeil c L hL⟩
  · simp only [pageFrom, pageTo, Nat.add_sub_cancel]
    have h2 : (k + 1) * L = k * L + L := by ring
    omega
  · simp only [pageFrom, pageTo, Nat.add_sub_cancel]
    omega
  · simp only [pageFrom, pageTo, Nat.add_sub_cancel]
    have h2 : (k + 1) * L = k * L + L := by ring
    omega
  · intro q hq
    simp only [pageFrom, pageTo, Nat.add_sub_cancel]
    have h1 : (k + 1) * L ≤ (q - 1) * L := Nat.mul_le_mul_right L (by omega)
    have h2 : (k + 1) * L = k * L + L := by ring
    omega

/-- Witness for C10 at page 2, limit 20, 45 rows. -/
theorem useOpportunities_pagination_exact_witness :
    pageFrom 2 20 = (2 - 1) * 20 ∧
    pageTo 2 20 = 2 * 20 - 1 ∧
    pageTo 2 20 - pageFrom 2 20 + 1 = 20 ∧
    pageTo 2 20 + 1 = pageFrom (2 + 1) 20 ∧
    (∀ q, 2 < q → pageTo 2 20 < pageFrom q 20) ∧
    totalPages 45 20 = ((45 + 20 - 1) / 20 : Nat) :=
  useOpportunities_pagination_exact 2 20 45 (by decide) (by decide)

/-! ## Evidence Ledger (spec-modelled)

The backend worker modules (ai_analyzer, nlp_processor, trend_detector,
orchestrator) are not among the available sources; only their schema
and callers are.  The ledger, the scoring engine and the orchestrator
below are therefore modelled from the spec. -/

/-- An evidence row: a weighted link between one opportunity and one
raw post, carrying a signal type. -/
structure EvidenceRow where
  opportunity_id : Nat
  raw_post_id : Nat
  signal_type : String
  weight : ℚ
deriving Repr, DecidableEq

/-- Modelled from the spec: the Evidence Ledger attach operation of the
absent backend workers.  attach(opportunity, post, signal_type, weight)
creates an Evidence row unless one already exists for that
(opportunity, post, signal_type) tuple, in which case it is a no-op. -/
def attach (s : List EvidenceRow) (o p : Nat) (t : String) (w : ℚ) :
    List EvidenceRow :=
  if s.any (fun e => e.opportunity_id = o && e.raw_post_id = p && e.signal_type = t)
  then s
  else s ++ [⟨o, p, t, w⟩]

/-- The number of evidence rows for a given (opportunity, post, signal
type) tuple. -/
def matchCount (s : List EvidenceRow) (o p : Nat) (t : String) : Nat :=
  s.countP (fun e => e.opportunity_id = o && e.raw_post_id = p && e.signal_type = t)

/-- C2: attaching the same (opportunity, post, signal_type) tuple twice
is absorbed: the second attach is a no-op, and starting from a store
with no row for the tuple, two attaches leave exactly one matching
row. -/
theorem attach_duplicate_noop (s : List EvidenceRow) (o p : Nat) (t : String)
    (w w2 : ℚ) :
    attach (attach s o p t w) o p t w2 = attach s o p t w ∧
    (matchCount s o p t = 0 →
      matchCount (attach (attach s o p t w) o p t w2) o p t = 1) := by
  by_cases h : (s.any fun e =>
      e.opportunity_id = o && e.raw_post_id = p && e.signal_type = t) = true
  · have h1 : attach s o p t w = s := by simp [attach, h]
    rw [h1]
    refine ⟨by simp [attach, h], fun hz => ?_⟩
    obtain ⟨e, he, hpe⟩ := List.any_eq_true.mp h
    have hpos : matchCount s o p t ≠ 0 := by
      unfold matchCount
      have hc : 0 < s.countP (fun e =>
          e.opportunity_id = o && e.raw_post_id = p && e.signal_type = t) :=
        List.countP_pos_iff.mpr ⟨e, he, hpe⟩
      omega
    exact absurd hz hpos
  · have h1 : attach s o p t w = s ++ [⟨o, p, t, w⟩] := by simp [attach, h]
    have hany : ((s ++ [(⟨o, p, t, w⟩ : EvidenceRow)]).any fun e =>
        e.opportunity_id = o && e.raw_post_id = p && e.signal_type = t) = true := by
      simp [List.any_append]
    refine ⟨by rw [h1]; simp [attach, hany], fun hz => ?_⟩
    rw [h1, attach, if_pos hany]
    unfold matchCount at hz ⊢
    rw [List.countP_append]
    simp [hz]

/-- Witness for C2 from the empty ledger. -/
theorem attach_duplicate_noop_witness :
    attach (attach [] 1 2 "problem-statement" 1) 1 2 "problem-statement" 1 =
      attach [] 1 2 "problem-statement" 1 ∧
    matchCount (attach (attach [] 1 2 "problem-statement" 1)
      1 2 "problem-statement" 1) 1 2 "problem-statement" = 1 := by
  have h := attach_duplicate_noop [] 1 2 "problem-statement" 1 1
  exact ⟨h.1, h.2 (by decide)⟩

/-! ## Scoring Engine confidence score (spec-modelled) -/

/-- Modelled from the spec: the saturating base curve of the confidence
score, a monotone function of the evidence count with diminishing
returns, 0 at zero evidence and approaching 100. -/
def confBase (n : Nat) : Nat := 100 - 100 / (n + 1)

/-- Modelled from the spec: confidence_score of the absent scoring
engine, a 0 to 100 integer: the saturating base curve over the
evidence count, increased by willingness-to-pay signals present (capped
bonus), reduced when the evidence spans a narrow time window, clamped
to the documented range. -/
def confidenceScore (evidenceCount wtpSignals : Nat) (narrowWindow : Bool) : Int :=
  min 100 (max 0 ((confBase evidenceCount : Int) +
    min 20 (5 * (wtpSignals : Int)) - (if narrowWindow then 20 else 0)))

/-- C6: the confidence score is monotonic non-decreasing in the
evidence count, holding the willingness-to-pay signals and the time
spread fixed. -/
theorem confidenceScore_monotone_in_evidence (n m wtp : Nat) (narrow : Bool)
    (h : n ≤ m) :
    confidenceScore n wtp narrow ≤ confidenceScore m wtp narrow := by
  unfold confidenceScore
  have hbase : confBase n ≤ confBase m := by
    unfold confBase
    have hdiv : 100 / (m + 1) ≤ 100 / (n + 1) :=
      Nat.div_le_div_left (by omega) (by omega)
    omega
  have hcast : (confBase n : Int) ≤ (confBase m : Int) := by exact_mod_cast hbase
  exact min_le_min le_rfl (max_le_max le_rfl (by linarith))

/-- Witness for C6 at evidence counts 1 and 3. -/
theorem confidenceScore_monotone_in_evidence_witness :
    confidenceScore 1 2 false ≤ confidenceScore 3 2 false :=
  confidenceScore_monotone_in_evidence 1 3 2 false (by decide)

/-! ## Pipeline Orchestrator (spec-modelled)

run_batch selects up to max_posts unprocessed posts, oldest scraped_at
first, and for each runs extraction, clustering, evidence attach and
rescoring, then marks the post processed.  The Post Analyzer Adapter is
isolated behind the analysis each post carries (a synthetic PostAnalysis
fixture), as the spec directs for testability. -/

/-- A signal: the normalized extraction from one raw post used as
clustering input. -/
structure Signal where
  postId : Nat
  category : String
  keywords : List String
  painSeverity : Nat
  wtp : Bool
  summary : String
  postedAt : Nat
deriving Repr, DecidableEq

/-- A post as the orchestrator sees it, carrying its analysis as a
synthetic fixture of the isolated analyzer adapter. -/
structure PipelinePost where
  id : Nat
  processed : Bool
  scrapedAt : Nat
  analysis : Signal
deriving Repr, DecidableEq

/-- The clustering-relevant state of one opportunity. -/
structure OpportunityState where
  oid : Nat
  category : String
  keywords : List String
  summary : String
  evidenceCount : Nat
  confidence : Int
  status : String
  detectedAt : Nat
deriving Repr, DecidableEq

/-- The persisted state the pipeline reads and writes. -/
structure PipelineState where
  posts : List PipelinePost
  opps : List OpportunityState
  ledger : List EvidenceRow
  nextId : Nat
deriving Repr, DecidableEq

/-- Modelled from the spec: Jaccard similarity over normalized
lower-cased keyword tokens; empty sets on both sides yield 0. -/
def jaccard (a b : List String) : ℚ :=
  let a2 := (a.map String.toLower).dedup
  let b2 := (b.map String.toLower).dedup
  let interN := (a2.filter (fun x => b2.contains x)).length
  let unionN := (a2 ++ b2.filter (fun x => !a2.contains x)).length
  if unionN = 0 then 0 else (interN : ℚ) / (unionN : ℚ)

/-- Modelled from the spec: deterministic, symmetric-by-construction
token-overlap similarity between two problem summaries. -/
def summaryOverlap (s t : String) : ℚ :=
  jaccard (s.splitOn " ") (t.splitOn " ")

/-- Modelled from the spec: the combined similarity between a signal
and an opportunity, a weighted combination of keyword Jaccard, category
equality and summary token overlap.  The exact weights are left open by
the spec; these defaults are one admissible configuration. -/
def similarity (sig : Signal) (o : OpportunityState) : ℚ :=
  (1 / 2) * jaccard sig.keywords o.keywords +
  (3 / 10) * (if sig.category = o.category then 1 else 0) +
  (1 / 5) * summaryOverlap sig.summary o.summary

/-- The fixed attachment threshold (configurable per the spec). -/
def attachThreshold : ℚ := 1 / 2

/-- Deterministic choice between two candidates: higher similarity
wins, ties broken by lowest opportunity id. -/
def betterCandidate (sig : Signal) (a b : OpportunityState) : OpportunityState :=
  if similarity sig b > similarity sig a ∨
     (similarity sig b = similarity sig a ∧ b.oid < a.oid) then b else a

/-- Modelled from the spec: the highest-scoring open opportunity above
the attachment threshold, ties broken by lowest id; none when no
candidate clears the threshold. -/
def bestCandidate (sig : Signal) (opps : List OpportunityState) :
    Option OpportunityState :=
  match opps.filter (fun o =>
      o.status = "active" && attachThreshold ≤ similarity sig o) with
  | [] => none
  | c :: cs => some (cs.foldl (betterCandidate sig) c)

/-- Modelled from the spec: the evidence count of an opportunity is the
number of distinct raw post ids linked to it. -/
def evidenceCountOf (ledger : List EvidenceRow) (oid : Nat) : Nat :=
  (((ledger.filter (fun e => e.opportunity_id = oid)).map
    (fun e => e.raw_post_id)).dedup).length

/-- The willingness-to-pay rows linked to an opportunity, a scoring
input. -/
def wtpCountOf (ledger : List EvidenceRow) (oid : Nat) : Nat :=
  (ledger.filter (fun e =>
    e.opportunity_id = oid && e.signal_type = "willingness-to-pay")).length

/-- Modelled from the spec: the summary is refined to the longest
non-empty description as new signals attach. -/
def refineSummary (old more : String) : String :=
  if more.length = 0 then old
  else if old.length < more.length then more else old

/-- The signal types one post contributes: a problem statement always,
plus a willingness-to-pay link when flagged. -/
def signalTypes (sig : Signal) : List String :=
  if sig.wtp then ["problem-statement", "willingness-to-pay"]
  else ["problem-statement"]

/-- Modelled from the spec: attach a signal to an opportunity: ledger
rows per signal type (duplicate-safe), keyword union, summary
refinement, recomputed evidence count and rescored confidence. -/
def attachSignal (st : PipelineState) (o : OpportunityState) (sig : Signal) :
    PipelineState :=
  let ledger2 := (signalTypes sig).foldl
    (fun l t => attach l o.oid sig.postId t 1) st.ledger
  let evCount := evidenceCountOf ledger2 o.oid
  let conf := confidenceScore evCount (wtpCountOf ledger2 o.oid) false
  let o2 := { o with
    keywords := (o.keywords ++ sig.keywords.filter
      (fun k => !o.keywords.contains k))
    summary := refineSummary o.summary sig.summary
    evidenceCount := evCount
    confidence := conf }
  { st with
    ledger := ledger2
    opps := st.opps.map (fun q => if q.oid = o.oid then o2 else q) }

/-- Modelled from the spec: a fresh opportunity seeded from the signal,
detected_at the signal post timestamp. -/
def seedOpportunity (nextId : Nat) (sig : Signal) : OpportunityState :=
  { oid := nextId, category := sig.category, keywords := sig.keywords
    summary := sig.summary, evidenceCount := 0, confidence := 0
    status := "active", detectedAt := sig.postedAt }

/-- Modelled from the spec: process one post: cluster its signal onto
the best open candidate or a fresh opportunity, attach evidence and
rescore, then mark the post processed. -/
def processPost (st : PipelineState) (p : PipelinePost) : PipelineState :=
  let sig := p.analysis
  let st2 :=
    match bestCandidate sig st.opps with
    | some o => attachSignal st o sig
    | none =>
      let o := seedOpportunity st.nextId sig
      attachSignal
        { st with opps := st.opps ++ [o], nextId := st.nextId + 1 } o sig
  { st2 with posts := st2.posts.map (fun q => if q.id = p.id then { q with processed := true } else q) }

/-- Insert a post into a list sorted by scrape time, keeping stability
for equal timestamps. -/
def insertByScrapedAt (p : PipelinePost) :
    List PipelinePost → List PipelinePost
  | [] => [p]
  | q :: rest =>
    if p.scrapedAt < q.scrapedAt then p :: q :: rest
    else q :: insertByScrapedAt p rest

/-- The unprocessed batch in stable oldest-first order. -/
def sortByScrapedAt (l : List PipelinePost) : List PipelinePost :=
  l.foldr insertByScrapedAt []

/-- Modelled from the spec: run_batch(max_posts): select up to
max_posts unprocessed posts, oldest scraped_at first, and process each
in order. -/
def runBatch (maxPosts : Nat) (st : PipelineState) : PipelineState :=
  ((sortByScrapedAt (st.posts.filter (fun p => !p.processed))).take
    maxPosts).foldl processPost st

/-- C7: re-running the batch over already-processed posts is a no-op:
the batch selects only unprocessed posts, so against unchanged
persisted state it creates zero new evidence rows and leaves every
score exactly as the previous run computed it — recomputation is a
total deterministic function of the persisted state, never an
incremental patch. -/
theorem runBatch_noop_on_processed (n : Nat) (st : PipelineState)
    (h : ∀ p ∈ st.posts, p.processed = true) :
    runBatch n st = st ∧
    (runBatch n st).ledger = st.ledger ∧
    (runBatch n st).opps = st.opps := by
  have hf : st.posts.filter (fun p => !p.processed) = [] := by
    rw [List.filter_eq_nil_iff]
    intro p hp
    simp [h p hp]
  have hmain : runBatch n st = st := by
    unfold runBatch
    rw [hf]
    simp [sortByScrapedAt]
  exact ⟨hmain, by rw [hmain], by rw [hmain]⟩

/-- A concrete fully-processed pipeline state. -/
def processedState : PipelineState :=
  { posts := [{ id := 1, processed := true, scrapedAt := 5
                analysis := { postId := 1, category := "pets"
                              keywords := ["dog", "brush"]
                              painSeverity := 7, wtp := true
                              summary := "shedding", postedAt := 4 } }]
    opps := [{ oid := 0, category := "pets", keywords := ["dog", "brush"]
               summary := "shedding", evidenceCount := 1
               confidence := 55, status := "active", detectedAt := 4 }]
    ledger := [⟨0, 1, "problem-statement", 1⟩]
    nextId := 1 }

/-- Witness for C7 on the concrete processed state. -/
theorem runBatch_noop_on_processed_witness :
    runBatch 10 processedState = processedState ∧
    (runBatch 10 processedState).ledger = processedState.ledger ∧
    (runBatch 10 processedState).opps = processedState.opps :=
  runBatch_noop_on_processed 10 processedState (by decide)

end ProductBrowser
